import Mathlib

/-
  Verification of the remadr mass-driver core.

  This file gives a shallow embedding of the Go sources (package dev plus
  the pulse-train code) and settles the frozen claims about them.
  Machine integers (int64 / time.Duration) are modelled as Int, with
  explicit wrapping modulo 2^64 where an operation can overflow;
  uint64 tick counters are modelled as Nat.  float64 quantities in the
  analytic LCR module and the approximation curves are modelled as exact
  real numbers.
-/

namespace dev

/-- Driver / stage state enumeration (drive.go). -/
inductive State where
  | Idle
  | Armed
  | Active
  | Done
  | Failed
deriving DecidableEq, Repr, Inhabited

/-- Error values (errors.go). -/
inductive Error where
  | DriverBusy
  | InvalidStage
  | InvalidPulseTrain
  | PulseWidthExceeded
  | InvalidPinMode
  | InvalidPinChange
  | SensePin
deriving DecidableEq, Repr, Inhabited

/-! ## Pulse train (delay.go, package dev)

`Run` first stores 1 into the flag `r`, then before each quiet segment and
(again) before driving an active segment it loads `r` and returns early when
the loaded value is 0.  `Abort` drives the pin low and stores 1 into `r`.
Concurrency is modelled by an adversarial schedule `aborts : Nat → Bool`
telling whether an `Abort` call lands immediately before the n-th atomic
load; an `Abort` occurrence writes `abortFlagValue` into the flag. -/

/-- The value `Abort` stores into the flag `r` (`atomic.StoreUint32(&pt.r, 1)`). -/
def abortFlagValue : Nat := 1

/-- The value `Run` stores into the flag `r` on entry (`atomic.StoreUint32(&pt.r, 1)`). -/
def runInitFlagValue : Nat := 1

/-- Observable outcome of one `Run` invocation. -/
structure RunResult where
  executedSegments : Nat
  earlyReturn : Bool
  highPulses : Nat
deriving DecidableEq, Repr

/-- The loop body of `PulseTrain.Run`: `i` is the loop index, `lc` counts
atomic loads of the flag, `flag` is the current flag value.  Before each
load the adversary may run `Abort`, which stores `abortFlagValue`. -/
def runLoop (aborts : Nat → Bool) : List Int → Nat → Nat → Nat → RunResult
  | [], _, _, _ => { executedSegments := 0, earlyReturn := false, highPulses := 0 }
  | _t :: rest, i, lc, flag =>
    let flag1 := if aborts lc then abortFlagValue else flag
    if flag1 = 0 then { executedSegments := 0, earlyReturn := true, highPulses := 0 }
    else if i % 2 = 0 then
      let r := runLoop aborts rest (i + 1) (lc + 1) flag1
      { r with executedSegments := r.executedSegments + 1 }
    else
      let flag2 := if aborts (lc + 1) then abortFlagValue else flag1
      if flag2 = 0 then { executedSegments := 0, earlyReturn := true, highPulses := 0 }
      else
        let r := runLoop aborts rest (i + 1) (lc + 2) flag2
        { r with executedSegments := r.executedSegments + 1,
                 highPulses := r.highPulses + 1 }

/-- A pulse train: the ordered list of quiet/active durations. -/
structure PulseTrain where
  durations : List Int
deriving DecidableEq, Repr, Inhabited

/-- Function `PulseTrain.Run` under an adversarial `Abort` schedule. -/
def PulseTrain.Run (pt : PulseTrain) (aborts : Nat → Bool) : RunResult :=
  runLoop aborts pt.durations 0 0 runInitFlagValue

theorem runLoop_flag_one (aborts : Nat → Bool) :
    ∀ (l : List Int) (i lc : Nat),
      (runLoop aborts l i lc 1).earlyReturn = false ∧
      (runLoop aborts l i lc 1).executedSegments = l.length := by
  intro l
  induction l with
  | nil => intro i lc; constructor <;> rfl
  | cons t rest ih =>
    intro i lc
    simp only [runLoop, abortFlagValue, ite_self, List.length_cons]
    by_cases h : i % 2 = 0
    · simp only [if_neg (by simp : ¬(1 : Nat) = 0), if_pos h]
      exact ⟨(ih (i + 1) (lc + 1)).1, by simp [(ih (i + 1) (lc + 1)).2]⟩
    · simp only [if_neg (by simp : ¬(1 : Nat) = 0), if_neg h, ite_self]
      exact ⟨(ih (i + 1) (lc + 2)).1, by simp [(ih (i + 1) (lc + 2)).2]⟩

/-- C1: the claim says that once `Abort` has been called, `Run` returns early
before executing the next quiet or active segment.  In the code, however,
`Run` treats a loaded flag value of 0 as the abort signal while both `Run`
(on entry) and `Abort` store the value 1, so no schedule of `Abort` calls can
ever make `Run` return early: every segment of the shape is executed. -/
theorem C1_run_never_observes_abort (durations : List Int) (aborts : Nat → Bool) :
    (PulseTrain.Run ⟨durations⟩ aborts).earlyReturn = false ∧
    (PulseTrain.Run ⟨durations⟩ aborts).executedSegments = durations.length :=
  runLoop_flag_one aborts durations 0 0

/-! ## Mass driver (drive.go)

The driver is modelled as a record of its mutable fields plus observation
logs: `armCalls` records every `stages[k].Arm()` call issued, `resetCalls`
every `stages[k].Reset()` call, `doneCalls` the argument of every
`doneCallback` invocation (a snapshot of `timestamps` at the moment of the
call), and `errorCalls` the arguments of every `errorCallback` invocation.
The behaviour of `stages[k].Arm()` is abstracted by a parameter
`armErr : Int → Option Error` giving the error (if any) returned when stage
`k` is armed. -/

/-- Maximum number of stages supported (drive.go). -/
def maxStages : Nat := 8

structure MassDriver where
  numStages : Nat
  state : State
  currentStage : Int
  timestamps : List Int
  armCalls : List Int
  resetCalls : List Int
  doneCalls : List (List Int)
  errorCalls : List (Int × Error)
deriving DecidableEq, Repr, Inhabited

/-- Method `MassDriver.setState`: stores state and current index; when the new
state is `Done` it invokes `doneCallback(d.timestamps)`, recorded as a
snapshot of the timestamp array at that moment. -/
def MassDriver.setState (d : MassDriver) (s : State) (idx : Int) : MassDriver :=
  let d := { d with state := s, currentStage := idx }
  if s = State.Done then { d with doneCalls := d.doneCalls ++ [d.timestamps] } else d

/-- Constructor `NewMassDriver`: panics (modelled as `Except.error`) when given more
than `maxStages` or zero stages; otherwise builds the driver and calls
`setState(Idle, -1)`. -/
def NewMassDriver (numStages : Nat) : Except String MassDriver :=
  if numStages > maxStages then Except.error "Too many stages specified"
  else if numStages = 0 then Except.error "Too few stages specified"
  else Except.ok (MassDriver.setState
    { numStages := numStages
      state := State.Idle
      currentStage := 0
      timestamps := List.replicate numStages 0
      armCalls := []
      resetCalls := []
      doneCalls := []
      errorCalls := [] } State.Idle (-1))

/-- Method `MassDriver.stageTriggered` (drive.go lines 87-114), with stage arming
abstracted by `armErr`. -/
def MassDriver.stageTriggered (armErr : Int → Option Error) (d : MassDriver)
    (stageIdx : Int) : MassDriver :=
  let state := d.state
  let stage := d.currentStage
  if stage ≠ stageIdx then d.setState State.Failed stageIdx
  else if stage = 0 ∧ state ≠ State.Armed then d.setState State.Failed stageIdx
  else
    let state := if stage = 0 then State.Active else state
    if state ≠ State.Active then d.setState State.Failed stageIdx
    else
      let stage := stageIdx + 1
      if stage < (d.numStages : Int) then
        let d := { d with armCalls := d.armCalls ++ [stage] }
        let state := if (armErr stage).isSome then State.Failed else state
        d.setState state stage
      else
        d.setState State.Done stage

/-- The completion callback wired by `MassDriver.Configure` for stage `i`:
it first calls `stageTriggered(i)` and only afterwards writes
`timestamps[i] = when`. -/
def MassDriver.cbStage (armErr : Int → Option Error) (d : MassDriver)
    (i : Nat) (when : Int) : MassDriver :=
  let d := d.stageTriggered armErr (i : Int)
  { d with timestamps := d.timestamps.set i when }

/-- Loop body of `MassDriver.Reset`: `stages[i].Reset(); timestamps[0] = 0`
(the index into `timestamps` is the literal 0 in the source). -/
def resetLoopF (d : MassDriver) (i : Nat) : MassDriver :=
  { d with resetCalls := d.resetCalls ++ [(i : Int)],
           timestamps := d.timestamps.set 0 0 }

/-- Loop body of the stage-reset loops in `MassDriver.Arm` and
`MassDriver.Abort`: `stages[i].Reset()` only. -/
def stageResetLoopF (d : MassDriver) (i : Nat) : MassDriver :=
  { d with resetCalls := d.resetCalls ++ [(i : Int)] }

/-- Method `MassDriver.Reset`. -/
def MassDriver.Reset (d : MassDriver) : MassDriver :=
  (List.range d.numStages).foldl resetLoopF (d.setState State.Idle (-1))

/-- Method `MassDriver.Abort`. -/
def MassDriver.Abort (d : MassDriver) : MassDriver :=
  (List.range d.numStages).foldl stageResetLoopF (d.setState State.Idle (-1))

/-- Method `MassDriver.Arm`: rejects with `DriverBusy` unless `Idle`; otherwise
resets all stages, sets `(Armed, 0)` and arms stage 0, propagating a stage
arm error to the error callback and the return value. -/
def MassDriver.Arm (armErr : Int → Option Error) (d : MassDriver) :
    MassDriver × Option Error :=
  if d.state ≠ State.Idle then
    ({ d with errorCalls := d.errorCalls ++ [(-1, Error.DriverBusy)] },
      some Error.DriverBusy)
  else
    let d := (List.range d.numStages).foldl stageResetLoopF d
    let d := d.setState State.Armed 0
    let d := { d with armCalls := d.armCalls ++ [(0 : Int)] }
    match armErr 0 with
    | some e => ({ d with errorCalls := d.errorCalls ++ [((0 : Int), e)] }, some e)
    | none => (d, none)

/-- Stage arming behaviour of a driver all of whose stages are
`ShapedPulseStage` (or its wrappers): arming never returns an error. -/
def armNone : Int → Option Error := fun _ => none

/-- A freshly constructed 2-stage driver. -/
def twoStageDriver : MassDriver := ((NewMassDriver 2).toOption).getD default

/-- The 2-stage driver immediately after a successful `Arm()`. -/
def twoStageArmed : MassDriver := (twoStageDriver.Arm armNone).1

/-- C2: a completion callback reporting an index different from the
driver's current stage index forces `Failed` and arms no stage; in
particular a 2-stage driver that has just been armed and receives stage 1's
completion callback first becomes `Failed` and never arms stage 1. -/
theorem C2_index_mismatch_fails (armErr : Int → Option Error) (d : MassDriver)
    (i : Nat) (t : Int) (h : (i : Int) ≠ d.currentStage) :
    ((d.cbStage armErr i t).state = State.Failed ∧
      (d.cbStage armErr i t).armCalls = d.armCalls) ∧
    ((twoStageArmed.cbStage armNone 1 t).state = State.Failed ∧
      (1 : Int) ∉ (twoStageArmed.cbStage armNone 1 t).armCalls) := by
  have h3 : ¬ d.currentStage = (i : Int) := fun h2 => h h2.symm
  constructor
  · constructor
    · simp [MassDriver.cbStage, MassDriver.stageTriggered, MassDriver.setState, h3]
    · simp [MassDriver.cbStage, MassDriver.stageTriggered, MassDriver.setState, h3]
  · constructor
    · rfl
    · have ha : (twoStageArmed.cbStage armNone 1 t).armCalls = [(0 : Int)] := rfl
      rw [ha]
      decide

/-- C2 witness: the mismatch theorem applied at a concrete driver. -/
theorem C2_index_mismatch_fails_witness :
    ((1 : Int) ≠ twoStageArmed.currentStage) ∧
    (((twoStageArmed.cbStage armNone 1 7).state = State.Failed ∧
        (twoStageArmed.cbStage armNone 1 7).armCalls = twoStageArmed.armCalls) ∧
      ((twoStageArmed.cbStage armNone 1 7).state = State.Failed ∧
        (1 : Int) ∉ (twoStageArmed.cbStage armNone 1 7).armCalls)) :=
  ⟨by decide, C2_index_mismatch_fails armNone twoStageArmed 1 7 (by decide)⟩

/-- C3: running the happy path of a 2-stage driver (stage 0 completes at
t0 = 100, then stage 1 at t1 = 200) does reach `Done`, but the completion
callback is invoked with the timestamp array `[100, 0]`: stage 1's slot is
written only after `stageTriggered` (and hence the callback) has returned,
so the callback never sees t1. -/
theorem C3_done_callback_missing_last_timestamp :
    ((twoStageArmed.cbStage armNone 0 100).cbStage armNone 1 200).state = State.Done ∧
    ((twoStageArmed.cbStage armNone 0 100).cbStage armNone 1 200).doneCalls = [[100, 0]] ∧
    ((twoStageArmed.cbStage armNone 0 100).cbStage armNone 1 200).timestamps = [100, 200] := by
  refine ⟨by decide, by decide, by decide⟩

/-! ## Shaped pulse stage (drive-shaped.go) -/

/-- A shaped pulse stage: trigger/sense pins are environment, the model
keeps the fields the claims are about. -/
structure ShapedPulseStage where
  shape : List Int
  senseStart : Nat
  senseEnd : Nat
  state : State
  pendingSignal : Bool
  val : Bool
deriving DecidableEq, Repr, Inhabited

/-- Method `ShapedPulseStage.SetShape`: rejects a shape of length < 2 or odd
length with `InvalidPulseTrain`, otherwise installs the pulse train. -/
def ShapedPulseStage.SetShape (s : ShapedPulseStage) (shape : List Int) :
    Except Error ShapedPulseStage :=
  if shape.length < 2 ∨ shape.length % 2 ≠ 0 then Except.error Error.InvalidPulseTrain
  else Except.ok { s with shape := shape }

/-- Constructor `NewShapedPulseStage`: builds the stage and calls `SetShape`,
panicking (modelled as `Except.error`) when `SetShape` returns an error. -/
def NewShapedPulseStage (shape : List Int) : Except String ShapedPulseStage :=
  let ret : ShapedPulseStage :=
    { shape := [], senseStart := 0, senseEnd := 0, state := State.Idle,
      pendingSignal := false, val := false }
  match ret.SetShape shape with
  | Except.error _ => Except.error "invalid pulse train"
  | Except.ok s => Except.ok s

/-- Method `ShapedPulseStage.Arm`: sets state `Armed`; if the sense pin already
reads the occupied polarity it records sense-enter and signals the worker;
it returns `nil` unconditionally. -/
def ShapedPulseStage.Arm (s : ShapedPulseStage) (senseGet : Bool) (tick : Nat) :
    ShapedPulseStage × Option Error :=
  let s := { s with state := State.Armed }
  let s := if senseGet = s.val
    then { s with senseStart := tick, pendingSignal := true }
    else s
  (s, none)

/-- True when the constructor call panics in the Go source. -/
def goPanics {α : Type} (e : Except String α) : Bool :=
  match e with
  | Except.error _ => true
  | Except.ok _ => false

/-- C4 counterexample: the core does terminate the process on some inputs:
`NewMassDriver` with zero stages panics, and `NewShapedPulseStage` with an
empty shape panics. -/
theorem C4_cex_constructors_panic :
    NewMassDriver 0 = Except.error "Too few stages specified" ∧
    NewMassDriver 9 = Except.error "Too many stages specified" ∧
    NewShapedPulseStage [] = Except.error "invalid pulse train" := by
  refine ⟨rfl, rfl, rfl⟩

/-- C4 (amended): configuration and runtime errors are returned as error
values (`SetShape` returns `InvalidPulseTrain`), but the constructors are
the exception: `NewMassDriver` panics exactly when the stage count is 0 or
exceeds 8, and `NewShapedPulseStage` panics exactly when the shape has
fewer than 2 entries or an odd number of entries. -/
theorem C4_amended_panic_characterization (n : Nat) (shape : List Int)
    (s : ShapedPulseStage) :
    (goPanics (NewMassDriver n) = true ↔ (n = 0 ∨ n > 8)) ∧
    (goPanics (NewShapedPulseStage shape) = true ↔
      (shape.length < 2 ∨ shape.length % 2 ≠ 0)) ∧
    (s.SetShape shape = Except.error Error.InvalidPulseTrain ↔
      (shape.length < 2 ∨ shape.length % 2 ≠ 0)) := by
  refine ⟨?_, ?_, ?_⟩
  · unfold NewMassDriver maxStages
    by_cases h1 : n > 8
    · rw [if_pos h1]
      exact iff_of_true rfl (Or.inr h1)
    · rw [if_neg h1]
      by_cases h2 : n = 0
      · rw [if_pos h2]
        exact iff_of_true rfl (Or.inl h2)
      · rw [if_neg h2]
        exact iff_of_false (by simp [goPanics]) (fun hc => hc.elim h2 h1)
  · unfold NewShapedPulseStage ShapedPulseStage.SetShape
    by_cases h : shape.length < 2 ∨ shape.length % 2 ≠ 0
    · simp only [if_pos h]
      exact iff_of_true rfl h
    · simp only [if_neg h]
      exact iff_of_false (by simp [goPanics]) h
  · unfold ShapedPulseStage.SetShape
    by_cases h : shape.length < 2 ∨ shape.length % 2 ≠ 0
    · rw [if_pos h]
      exact iff_of_true rfl h
    · rw [if_neg h]
      exact iff_of_false (by simp) h

theorem foldl_resetLoopF_fields (l : List Nat) (d : MassDriver) :
    (l.foldl resetLoopF d).state = d.state ∧
    (l.foldl resetLoopF d).currentStage = d.currentStage ∧
    (l.foldl resetLoopF d).resetCalls = d.resetCalls ++ l.map Int.ofNat ∧
    (l.foldl resetLoopF d).timestamps =
      (if l = [] then d.timestamps else d.timestamps.set 0 0) := by
  induction l generalizing d with
  | nil => simp
  | cons a l ih =>
    obtain ⟨ih1, ih2, ih3, ih4⟩ := ih (resetLoopF d a)
    refine ⟨by simpa [resetLoopF] using ih1, by simpa [resetLoopF] using ih2, ?_, ?_⟩
    · rw [List.foldl_cons, ih3]
      simp [resetLoopF]
    · rw [List.foldl_cons, ih4]
      by_cases h : l = [] <;> simp [h, resetLoopF, List.set_set]

theorem foldl_stageResetLoopF_fields (l : List Nat) (d : MassDriver) :
    (l.foldl stageResetLoopF d).state = d.state ∧
    (l.foldl stageResetLoopF d).currentStage = d.currentStage ∧
    (l.foldl stageResetLoopF d).resetCalls = d.resetCalls ++ l.map Int.ofNat ∧
    (l.foldl stageResetLoopF d).timestamps = d.timestamps := by
  induction l generalizing d with
  | nil => simp
  | cons a l ih =>
    obtain ⟨ih1, ih2, ih3, ih4⟩ := ih (stageResetLoopF d a)
    refine ⟨by simpa [stageResetLoopF] using ih1,
      by simpa [stageResetLoopF] using ih2, ?_,
      by simpa [stageResetLoopF] using ih4⟩
    rw [List.foldl_cons, ih3]
    simp [stageResetLoopF]

/-- C9: for a driver with at least 2 stages, `Reset` goes to `Idle` with
current index -1 and issues a reset to every stage, but zeroes only slot 0
of the completion-timestamp array (slots 1..n-1 keep their old values),
and `Abort` leaves the whole timestamp array untouched. -/
theorem C9_reset_zeroes_only_slot_zero (d : MassDriver) (h2 : 2 ≤ d.numStages) :
    d.Reset.state = State.Idle ∧
    d.Reset.currentStage = -1 ∧
    d.Reset.resetCalls = d.resetCalls ++ (List.range d.numStages).map Int.ofNat ∧
    d.Reset.timestamps = d.timestamps.set 0 0 ∧
    d.Abort.timestamps = d.timestamps := by
  have hne : ¬ List.range d.numStages = [] := by
    simp [List.range_eq_nil]
    omega
  obtain ⟨f1, f2, f3, f4⟩ :=
    foldl_resetLoopF_fields (List.range d.numStages) (d.setState State.Idle (-1))
  obtain ⟨g1, g2, g3, g4⟩ :=
    foldl_stageResetLoopF_fields (List.range d.numStages) (d.setState State.Idle (-1))
  have hset : d.setState State.Idle (-1) =
      { d with state := State.Idle, currentStage := -1 } := by
    simp [MassDriver.setState]
  refine ⟨?_, ?_, ?_, ?_, ?_⟩
  · rw [MassDriver.Reset, f1, hset]
  · rw [MassDriver.Reset, f2, hset]
  · rw [MassDriver.Reset, f3, hset]
  · rw [MassDriver.Reset, f4, if_neg hne, hset]
  · rw [MassDriver.Abort, g4, hset]

/-- C9 witness: the reset/abort frame theorem at a concrete driver. -/
theorem C9_reset_zeroes_only_slot_zero_witness :
    2 ≤ (MassDriver.mk 2 State.Done 2 [5, 7] [0, 1] [] [] []).numStages ∧
    ((MassDriver.mk 2 State.Done 2 [5, 7] [0, 1] [] [] []).Reset.state = State.Idle ∧
      (MassDriver.mk 2 State.Done 2 [5, 7] [0, 1] [] [] []).Reset.currentStage = -1 ∧
      (MassDriver.mk 2 State.Done 2 [5, 7] [0, 1] [] [] []).Reset.resetCalls =
        (MassDriver.mk 2 State.Done 2 [5, 7] [0, 1] [] [] []).resetCalls ++
          (List.range (MassDriver.mk 2 State.Done 2 [5, 7] [0, 1] [] [] []).numStages).map Int.ofNat ∧
      (MassDriver.mk 2 State.Done 2 [5, 7] [0, 1] [] [] []).Reset.timestamps =
        (MassDriver.mk 2 State.Done 2 [5, 7] [0, 1] [] [] []).timestamps.set 0 0 ∧
      (MassDriver.mk 2 State.Done 2 [5, 7] [0, 1] [] [] []).Abort.timestamps =
        (MassDriver.mk 2 State.Done 2 [5, 7] [0, 1] [] [] []).timestamps) :=
  ⟨by decide, C9_reset_zeroes_only_slot_zero (MassDriver.mk 2 State.Done 2 [5, 7] [0, 1] [] [] []) (by decide)⟩

/-- C10: `ShapedPulseStage.Arm` returns `nil` for every receiver and every
sense-pin reading; consequently, with stages that never fail to arm, the
`Failed` outcome of `stageTriggered` can only come from the index/state
cross-checks (never from the arm-error branch), and the driver's `Arm`
never returns a stage arm error (only `DriverBusy` when not idle). -/
theorem C10_arm_never_fails :
    (∀ (s : ShapedPulseStage) (senseGet : Bool) (tick : Nat),
      (s.Arm senseGet tick).2 = none) ∧
    (∀ (d : MassDriver) (i : Int),
      ((d.stageTriggered armNone i).state = State.Failed ↔
        (i ≠ d.currentStage ∨
          (d.currentStage = 0 ∧ d.state ≠ State.Armed) ∨
          (d.currentStage ≠ 0 ∧ d.state ≠ State.Active)))) ∧
    (∀ d : MassDriver,
      (d.Arm armNone).2 =
        (if d.state = State.Idle then none else some Error.DriverBusy)) := by
  refine ⟨fun s g t => rfl, ?_, ?_⟩
  · intro d i
    unfold MassDriver.stageTriggered
    simp only [MassDriver.setState, armNone, Option.isSome_none]
    split_ifs with h1 h2 h3 h4 h5 h6 h7 h8 h9
    all_goals simp_all
    all_goals tauto
  · intro d
    unfold MassDriver.Arm
    by_cases h : d.state = State.Idle
    · simp [h, armNone]
    · simp [h, armNone]

/-! ## Chronograph (chrono.go) -/

/-- The chronograph's four raw timestamps (uint64 tick values). -/
structure Chronograph where
  timeStartA : Nat
  timeEndA : Nat
  timeStartB : Nat
  timeEndB : Nat
deriving DecidableEq, Repr, Inhabited

/-- Predicate `Chronograph.IsValid` (chrono.go lines 119-122). -/
def Chronograph.IsValid (c : Chronograph) : Bool :=
  ((c.timeStartA != 0) && (c.timeEndA != 0) && (c.timeStartB != 0) && (c.timeEndB != 0)) ||
  ((c.timeStartA == 0) && (c.timeEndA == 0) && (c.timeStartB == 0) && (c.timeEndB == 0))

/-- C6: predicate `IsValid` is true exactly when all four timestamps are non-zero or
all four are zero; in particular every tuple with exactly 1, 2 or 3
non-zero entries is invalid. -/
theorem C6_isValid_all_or_none (c : Chronograph) :
    (c.IsValid = true ↔
      ((c.timeStartA ≠ 0 ∧ c.timeEndA ≠ 0 ∧ c.timeStartB ≠ 0 ∧ c.timeEndB ≠ 0) ∨
        (c.timeStartA = 0 ∧ c.timeEndA = 0 ∧ c.timeStartB = 0 ∧ c.timeEndB = 0))) ∧
    (1 ≤ ([c.timeStartA, c.timeEndA, c.timeStartB, c.timeEndB].countP (· != 0)) →
      ([c.timeStartA, c.timeEndA, c.timeStartB, c.timeEndB].countP (· != 0)) ≤ 3 →
      c.IsValid = false) := by
  obtain ⟨sa, ea, sb, eb⟩ := c
  constructor
  · simp [Chronograph.IsValid]
    tauto
  · intro hlo hhi
    by_cases h1 : sa = 0 <;> by_cases h2 : ea = 0 <;> by_cases h3 : sb = 0 <;>
      by_cases h4 : eb = 0 <;>
      simp_all [Chronograph.IsValid, List.countP_cons]

/-- C6 witness: the tuple (5, 7, 9, 0) has exactly three non-zero entries
and is reported invalid. -/
theorem C6_isValid_all_or_none_witness :
    (Chronograph.mk 5 7 9 0).IsValid = false :=
  (C6_isValid_all_or_none (Chronograph.mk 5 7 9 0)).2 (by decide) (by decide)

/-! ## Wait calibration (apr-lin.go)

`time.Duration` is Go's int64; multiplication wraps modulo 2^64 in two's
complement, modelled by `wrap64`.  Go's `%` on int64 is truncated
remainder (`Int.tmod`) and `/` is truncated division (`Int.tdiv`); these
never overflow on the values reached here, so only the product inside
`lcm` is wrapped. -/

/-- Two's-complement wrap of an int64 arithmetic result. -/
def wrap64 (z : Int) : Int := (z + 2 ^ 63) % 2 ^ 64 - 2 ^ 63

/-- Go int64 multiplication. -/
def goMul64 (a b : Int) : Int := wrap64 (a * b)

theorem natAbs_tmod (a b : Int) : (Int.tmod a b).natAbs = a.natAbs % b.natAbs := by
  cases a <;> cases b <;> simp only [Int.tmod, Int.natAbs_neg] <;> rfl

/-- Function `Gcd` (apr-lin.go): Euclid's loop written with Go's truncated
remainder, looping while b is non-zero with a, b replaced by b, a % b. -/
def Gcd (a b : Int) : Int :=
  if b = 0 then a else Gcd b (Int.tmod a b)
termination_by b.natAbs
decreasing_by
  rw [natAbs_tmod]
  exact Nat.mod_lt _ (Int.natAbs_pos.mpr (by assumption))

/-- Function `lcm` (apr-lin.go): `a * b / Gcd(a, b)` in int64 arithmetic. -/
def lcm (a b : Int) : Int := Int.tdiv (goMul64 a b) (Gcd a b)

/-- Function `scaleConstants` (apr-lin.go): `l := lcm(a, b); return l / a, l / b`. -/
def scaleConstants (a b : Int) : Int × Int :=
  let l := lcm a b
  (Int.tdiv l a, Int.tdiv l b)

/-- Function `SetWaitCalibration`: stores `(K, M) = scaleConstants(actual, wanted)`. -/
def SetWaitCalibration (wanted actual : Int) : Int × Int :=
  scaleConstants actual wanted

theorem Gcd_zero (a : Int) : Gcd a 0 = a := by
  unfold Gcd
  simp

theorem Gcd_step (a b : Int) (h : b ≠ 0) : Gcd a b = Gcd b (Int.tmod a b) := by
  conv_lhs => unfold Gcd
  rw [if_neg h]

theorem Gcd_eq_gcd_aux :
    ∀ (n : Nat) (a b : Int), 0 ≤ a → 0 ≤ b → b.natAbs ≤ n →
      Gcd a b = (Int.gcd a b : Int) := by
  intro n
  induction n with
  | zero =>
    intro a b ha hb hle
    have hb0 : b = 0 := Int.natAbs_eq_zero.mp (Nat.le_zero.mp hle)
    subst hb0
    rw [Gcd_zero, Int.gcd_zero_right, Int.natAbs_of_nonneg ha]
  | succ n ih =>
    intro a b ha hb hle
    by_cases hb0 : b = 0
    · subst hb0
      rw [Gcd_zero, Int.gcd_zero_right, Int.natAbs_of_nonneg ha]
    · rw [Gcd_step a b hb0]
      have hmodnn : 0 ≤ Int.tmod a b := Int.tmod_nonneg b ha
      have hlt : (Int.tmod a b).natAbs < b.natAbs := by
        rw [natAbs_tmod]
        exact Nat.mod_lt _ (Int.natAbs_pos.mpr hb0)
      have := ih b (Int.tmod a b) hb (by exact hmodnn) (by omega)
      rw [this]
      congr 1
      obtain ⟨m, rfl⟩ := Int.eq_ofNat_of_zero_le ha
      obtain ⟨k, rfl⟩ := Int.eq_ofNat_of_zero_le hb
      rw [← Int.ofNat_tmod]
      show Nat.gcd k (m % k) = Nat.gcd m k
      rw [Nat.gcd_comm k (m % k), ← Nat.gcd_rec k m, Nat.gcd_comm k m]

theorem Gcd_eq_gcd (a b : Int) (ha : 0 ≤ a) (hb : 0 ≤ b) :
    Gcd a b = (Int.gcd a b : Int) :=
  Gcd_eq_gcd_aux b.natAbs a b ha hb le_rfl

theorem wrap64_eq_self (z : Int) (hlo : -(2 ^ 63) ≤ z) (hhi : z < 2 ^ 63) :
    wrap64 z = z := by
  unfold wrap64
  rw [Int.emod_eq_of_lt (by omega) (by omega)]
  omega

/-- C5 counterexample: for the positive int64 durations
wanted = 4294967298 ns and actual = 4294967296 ns the product inside `lcm`
wraps around, the stored constants come out as (K, M) = (1, 0), and
`actual * K = wanted * M` fails. -/
theorem C5_cex_overflow :
    SetWaitCalibration 4294967298 4294967296 = (1, 0) ∧
    ¬ (4294967296 * (SetWaitCalibration 4294967298 4294967296).1 =
        4294967298 * (SetWaitCalibration 4294967298 4294967296).2) := by
  have hg : Gcd 4294967296 4294967298 = 2 := by
    rw [Gcd_step _ _ (by norm_num)]
    rw [show Int.tmod 4294967296 4294967298 = 4294967296 from by decide]
    rw [Gcd_step _ _ (by norm_num)]
    rw [show Int.tmod 4294967298 4294967296 = 2 from by decide]
    rw [Gcd_step _ _ (by norm_num)]
    rw [show Int.tmod 4294967296 2 = 0 from by decide]
    exact Gcd_zero 2
  have hres : SetWaitCalibration 4294967298 4294967296 = (1, 0) := by
    unfold SetWaitCalibration scaleConstants lcm
    rw [hg]
    decide
  exact ⟨hres, by rw [hres]; decide⟩

/-- C5 (amended): for positive int64 durations whose product does not
overflow int64, `SetWaitCalibration(wanted, actual)` stores exactly the
reduced ratio `K = lcm(actual, wanted) / actual`,
`M = lcm(actual, wanted) / wanted`, and these satisfy
`actual * K = wanted * M`. -/
theorem C5_amended_calibration_ratio (wanted actual : Int)
    (hw : 0 < wanted) (ha : 0 < actual) (hov : actual * wanted < 2 ^ 63) :
    (SetWaitCalibration wanted actual).1 =
      ((Nat.lcm actual.natAbs wanted.natAbs : Int) / actual) ∧
    (SetWaitCalibration wanted actual).2 =
      ((Nat.lcm actual.natAbs wanted.natAbs : Int) / wanted) ∧
    actual * (SetWaitCalibration wanted actual).1 =
      wanted * (SetWaitCalibration wanted actual).2 := by
  obtain ⟨m, rfl⟩ := Int.eq_ofNat_of_zero_le ha.le
  obtain ⟨k, rfl⟩ := Int.eq_ofNat_of_zero_le hw.le
  have hm : 0 < m := by exact_mod_cast ha
  have hk : 0 < k := by exact_mod_cast hw
  have hprod : (m : Int) * k < 2 ^ 63 := hov
  have hmul : goMul64 (m : Int) (k : Int) = ((m * k : Nat) : Int) := by
    unfold goMul64
    rw [wrap64_eq_self]
    · push_cast
      ring
    · have h0 : (0 : Int) ≤ (m : Int) * k := by positivity
      omega
    · push_cast
      exact hprod
  have hgcd : Gcd (m : Int) (k : Int) = ((Nat.gcd m k : Nat) : Int) := by
    rw [Gcd_eq_gcd _ _ (by positivity) (by positivity)]
    simp [Int.gcd]
  have hlcm : lcm (m : Int) (k : Int) = ((Nat.lcm m k : Nat) : Int) := by
    unfold lcm
    rw [hmul, hgcd, ← Int.ofNat_tdiv]
    exact congrArg Int.ofNat (rfl : m * k / Nat.gcd m k = Nat.lcm m k)
  have hdvd1 : m ∣ Nat.lcm m k := Nat.dvd_lcm_left m k
  have hdvd2 : k ∣ Nat.lcm m k := Nat.dvd_lcm_right m k
  have hKM : SetWaitCalibration (k : Int) (m : Int) =
      (((Nat.lcm m k / m : Nat) : Int), ((Nat.lcm m k / k : Nat) : Int)) := by
    unfold SetWaitCalibration scaleConstants
    simp only [hlcm, ← Int.ofNat_tdiv]
  refine ⟨?_, ?_, ?_⟩
  · rw [hKM]
    simp only [Int.natAbs_ofNat]
    exact Int.ofNat_ediv _ _
  · rw [hKM]
    simp only [Int.natAbs_ofNat]
    exact Int.ofNat_ediv _ _
  · rw [hKM]
    have h1 : m * (Nat.lcm m k / m) = Nat.lcm m k := Nat.mul_div_cancel' hdvd1
    have h2 : k * (Nat.lcm m k / k) = Nat.lcm m k := Nat.mul_div_cancel' hdvd2
    have : ((m * (Nat.lcm m k / m) : Nat) : Int) = ((k * (Nat.lcm m k / k) : Nat) : Int) := by
      rw [h1, h2]
    push_cast at this
    exact this

/-- C5 witness: the amended calibration theorem at wanted = 6, actual = 4. -/
theorem C5_amended_calibration_ratio_witness :
    (0 : Int) < 6 ∧ (0 : Int) < 4 ∧ (4 : Int) * 6 < 2 ^ 63 ∧
    ((SetWaitCalibration 6 4).1 = ((Nat.lcm (4 : Int).natAbs (6 : Int).natAbs : Int) / 4) ∧
      (SetWaitCalibration 6 4).2 = ((Nat.lcm (4 : Int).natAbs (6 : Int).natAbs : Int) / 6) ∧
      4 * (SetWaitCalibration 6 4).1 = 6 * (SetWaitCalibration 6 4).2) :=
  ⟨by norm_num, by norm_num, by norm_num,
    C5_amended_calibration_ratio 6 4 (by norm_num) (by norm_num) (by norm_num)⟩

/-! ## LCR energy model (drive-circuit.go)

float64 quantities are modelled as exact real numbers. -/

/-- LCR circuit parameters. -/
structure CircuitParameters where
  L : ℝ
  C : ℝ
  R : ℝ
  V0 : ℝ

/-- Method `NaturalFrequency`: ω₀ = 1 / √(LC). -/
noncomputable def CircuitParameters.NaturalFrequency (cp : CircuitParameters) : ℝ :=
  1 / Real.sqrt (cp.L * cp.C)

/-- Method `DampingFactor`: α = R / (2L). -/
noncomputable def CircuitParameters.DampingFactor (cp : CircuitParameters) : ℝ :=
  cp.R / (2 * cp.L)

open scoped Classical in
/-- Method `DampedFrequency`: fails when α ≥ ω₀, otherwise √(ω₀·ω₀ − α·α). -/
noncomputable def CircuitParameters.DampedFrequency (cp : CircuitParameters) :
    Except String ℝ :=
  let omega0 := cp.NaturalFrequency
  let alpha := cp.DampingFactor
  if alpha ≥ omega0 then Except.error "circuit is not underdamped"
  else Except.ok (Real.sqrt (omega0 * omega0 - alpha * alpha))

theorem sqrt_L_div_C (cp : CircuitParameters) (hL : 0 < cp.L) (hC : 0 < cp.C) :
    Real.sqrt (cp.L / cp.C) = cp.L / Real.sqrt (cp.L * cp.C) := by
  rw [show cp.L / cp.C = cp.L ^ 2 / (cp.L * cp.C) by field_simp; ring]
  rw [Real.sqrt_div (by positivity) _, Real.sqrt_sq hL.le]

theorem damping_ge_natural_iff (cp : CircuitParameters)
    (hL : 0 < cp.L) (hC : 0 < cp.C) :
    (cp.NaturalFrequency ≤ cp.DampingFactor) ↔
      2 * Real.sqrt (cp.L / cp.C) ≤ cp.R := by
  unfold CircuitParameters.NaturalFrequency CircuitParameters.DampingFactor
  have hLC : 0 < cp.L * cp.C := mul_pos hL hC
  have hsq : 0 < Real.sqrt (cp.L * cp.C) := Real.sqrt_pos.mpr hLC
  rw [div_le_div_iff₀ hsq (by positivity), one_mul]
  rw [sqrt_L_div_C cp hL hC, ← mul_div_assoc, div_le_iff₀ hsq]

/-- C8 counterexample: for L = 1, C = 1, R = −3 (all reals, L > 0 and
C > 0 as the claim requires) we have R < 2√(L/C), yet `DampedFrequency`
returns 0 — not a positive value — because ω₀² − α² is negative and the
square root saturates. -/
theorem C8_cex_negative_resistance :
    0 < (CircuitParameters.mk 1 1 (-3) 0).L ∧
    0 < (CircuitParameters.mk 1 1 (-3) 0).C ∧
    (CircuitParameters.mk 1 1 (-3) 0).R <
      2 * Real.sqrt ((CircuitParameters.mk 1 1 (-3) 0).L /
        (CircuitParameters.mk 1 1 (-3) 0).C) ∧
    (CircuitParameters.mk 1 1 (-3) 0).DampedFrequency = Except.ok 0 ∧
    ¬ (0 : ℝ) < 0 := by
  have h1 : (CircuitParameters.mk 1 1 (-3) 0).NaturalFrequency = 1 := by
    unfold CircuitParameters.NaturalFrequency
    norm_num
  have h2 : (CircuitParameters.mk 1 1 (-3) 0).DampingFactor = -3 / 2 := by
    unfold CircuitParameters.DampingFactor
    norm_num
  refine ⟨by norm_num, by norm_num, ?_, ?_, by norm_num⟩
  · show (-3 : ℝ) < 2 * Real.sqrt ((1 : ℝ) / 1)
    rw [div_one, Real.sqrt_one]
    norm_num
  · unfold CircuitParameters.DampedFrequency
    rw [h1, h2]
    rw [if_neg (by norm_num)]
    have : Real.sqrt ((1 : ℝ) * 1 - -3 / 2 * (-3 / 2)) = 0 := by
      rw [Real.sqrt_eq_zero']
      norm_num
    rw [this]

/-- C8 (amended): for L > 0, C > 0 and a physical (non-negative)
resistance, `DampedFrequency` returns a positive value and no error when
R < 2√(L/C), and fails with the not-underdamped error exactly when
R ≥ 2√(L/C); moreover the branch condition α ≥ ω₀ is equivalent to
R ≥ 2√(L/C).  (For R < 0 with |α| ≥ ω₀ the positivity part fails, see the
counterexample.) -/
theorem C8_amended_damped_frequency (cp : CircuitParameters)
    (hL : 0 < cp.L) (hC : 0 < cp.C) (hR : 0 ≤ cp.R) :
    (cp.R < 2 * Real.sqrt (cp.L / cp.C) →
      ∃ v, cp.DampedFrequency = Except.ok v ∧ 0 < v) ∧
    (2 * Real.sqrt (cp.L / cp.C) ≤ cp.R ↔
      cp.DampedFrequency = Except.error "circuit is not underdamped") ∧
    ((cp.DampingFactor ≥ cp.NaturalFrequency) ↔
      2 * Real.sqrt (cp.L / cp.C) ≤ cp.R) := by
  have hcrit := damping_ge_natural_iff cp hL hC
  refine ⟨?_, ⟨?_, ?_⟩, hcrit⟩
  · intro hlt
    have hno : ¬ (cp.NaturalFrequency ≤ cp.DampingFactor) := by
      rw [hcrit]
      exact not_le.mpr hlt
    refine ⟨Real.sqrt (cp.NaturalFrequency * cp.NaturalFrequency -
      cp.DampingFactor * cp.DampingFactor), ?_, ?_⟩
    · unfold CircuitParameters.DampedFrequency
      rw [if_neg (by exact hno)]
    · have halpha : 0 ≤ cp.DampingFactor := by
        unfold CircuitParameters.DampingFactor
        positivity
      have hlt2 : cp.DampingFactor < cp.NaturalFrequency := not_le.mp hno
      have : cp.DampingFactor * cp.DampingFactor <
          cp.NaturalFrequency * cp.NaturalFrequency :=
        mul_self_lt_mul_self halpha hlt2
      exact Real.sqrt_pos.mpr (by linarith)
  · intro hge
    unfold CircuitParameters.DampedFrequency
    rw [if_pos (by exact hcrit.mpr hge)]
  · intro herr
    by_contra hlt
    have hno : ¬ (cp.NaturalFrequency ≤ cp.DampingFactor) := by
      rw [hcrit]
      exact hlt
    unfold CircuitParameters.DampedFrequency at herr
    rw [if_neg (by exact hno)] at herr
    exact Except.noConfusion herr

/-- C8 witness: the amended theorem at L = 1, C = 1, R = 0. -/
theorem C8_amended_damped_frequency_witness :
    0 < (CircuitParameters.mk 1 1 0 0).L ∧
    0 < (CircuitParameters.mk 1 1 0 0).C ∧
    0 ≤ (CircuitParameters.mk 1 1 0 0).R ∧
    (((CircuitParameters.mk 1 1 0 0).R <
        2 * Real.sqrt ((CircuitParameters.mk 1 1 0 0).L /
          (CircuitParameters.mk 1 1 0 0).C) →
      ∃ v, (CircuitParameters.mk 1 1 0 0).DampedFrequency = Except.ok v ∧ 0 < v) ∧
    (2 * Real.sqrt ((CircuitParameters.mk 1 1 0 0).L /
        (CircuitParameters.mk 1 1 0 0).C) ≤ (CircuitParameters.mk 1 1 0 0).R ↔
      (CircuitParameters.mk 1 1 0 0).DampedFrequency =
        Except.error "circuit is not underdamped") ∧
    (((CircuitParameters.mk 1 1 0 0).DampingFactor ≥
        (CircuitParameters.mk 1 1 0 0).NaturalFrequency) ↔
      2 * Real.sqrt ((CircuitParameters.mk 1 1 0 0).L /
        (CircuitParameters.mk 1 1 0 0).C) ≤ (CircuitParameters.mk 1 1 0 0).R)) :=
  ⟨by norm_num, by norm_num, by norm_num,
    C8_amended_damped_frequency (CircuitParameters.mk 1 1 0 0)
      (by norm_num) (by norm_num) (by norm_num)⟩

/-! ## Quadratic approximator (drive-circuit.go)

float64 arithmetic is modelled as exact real arithmetic; the Go
`uint16(result + 0.5)` conversion truncates the non-negative float, i.e.
takes the floor. -/

/-- Quadratic ADC-to-voltage curve y = a·x² + b·x + c. -/
structure QuadraticApproximator where
  a : ℝ
  b : ℝ
  c : ℝ

/-- Constructor `NewQuadraticApproximatorFromPoints`: three-point fit via Cramer's
rule. -/
noncomputable def NewQuadraticApproximatorFromPoints
    (x1 : ℕ) (y1 : ℝ) (x2 : ℕ) (y2 : ℝ) (x3 : ℕ) (y3 : ℝ) : QuadraticApproximator :=
  let tx1 : ℝ := x1
  let tx2 : ℝ := x2
  let tx3 : ℝ := x3
  let denominator := (tx1 - tx2) * (tx1 - tx3) * (tx2 - tx3)
  { a := (tx3 * (y2 - y1) + tx2 * (y1 - y3) + tx1 * (y3 - y2)) / denominator
    b := (tx3 * tx3 * (y1 - y2) + tx2 * tx2 * (y3 - y1) + tx1 * tx1 * (y2 - y3)) /
      denominator
    c := (tx2 * tx3 * (tx2 - tx3) * y1 + tx1 * tx3 * (tx3 - tx1) * y2 +
      tx1 * tx2 * (tx1 - tx2) * y3) / denominator }

/-- Method `Convert`: evaluates the polynomial at a raw ADC value. -/
noncomputable def QuadraticApproximator.Convert (qa : QuadraticApproximator)
    (adcValue : ℕ) : ℝ :=
  qa.a * adcValue * adcValue + qa.b * adcValue + qa.c

open scoped Classical in
/-- Method `ConvertInverse`: solves the quadratic for the ADC value, preferring
the smallest non-negative root, clamping to [0, 65535] and rounding by
adding 0.5 and truncating. -/
noncomputable def QuadraticApproximator.ConvertInverse (qa : QuadraticApproximator)
    (targetValue : ℝ) : ℕ :=
  let a := qa.a
  let b := qa.b
  let c := qa.c - targetValue
  let discriminant := b * b - 4 * a * c
  if discriminant < 0 then
    if c < 0 then 65535 else 0
  else
    let sqrtDiscriminant := Real.sqrt discriminant
    let x1 := (-b + sqrtDiscriminant) / (2 * a)
    let x2 := (-b - sqrtDiscriminant) / (2 * a)
    let result := if x1 ≥ 0 ∧ (x2 < 0 ∨ x1 < x2) then x1 else x2
    if result < 0 then 0
    else if result > 65535 then 65535
    else Nat.floor (result + 0.5)

theorem convertInverse_convert (qa : QuadraticApproximator)
    (ha : 0 < qa.a) (hb : 0 < qa.b) (code : ℕ) (hcode : code ≤ 65535) :
    qa.ConvertInverse (qa.Convert code) = code := by
  have hx : (0 : ℝ) ≤ (code : ℝ) := Nat.cast_nonneg code
  have hax : 0 ≤ qa.a * (code : ℝ) := mul_nonneg ha.le hx
  have hroot : 0 ≤ qa.b + 2 * qa.a * (code : ℝ) := by linarith
  have hD : qa.b * qa.b - 4 * qa.a * (qa.c - qa.Convert code) =
      (qa.b + 2 * qa.a * (code : ℝ)) * (qa.b + 2 * qa.a * (code : ℝ)) := by
    unfold QuadraticApproximator.Convert
    ring
  have hDnot : ¬ (qa.b * qa.b - 4 * qa.a * (qa.c - qa.Convert code) < 0) := by
    rw [hD]
    exact not_lt.mpr (mul_self_nonneg _)
  have hx1 : (-qa.b + (qa.b + 2 * qa.a * (code : ℝ))) / (2 * qa.a) = (code : ℝ) := by
    field_simp
  have hx2lt : (-qa.b - (qa.b + 2 * qa.a * (code : ℝ))) / (2 * qa.a) < 0 :=
    div_neg_of_neg_of_pos (by linarith) (by positivity)
  have hcond : (code : ℝ) ≥ 0 ∧
      ((-qa.b - (qa.b + 2 * qa.a * (code : ℝ))) / (2 * qa.a) < 0 ∨
        (code : ℝ) < (-qa.b - (qa.b + 2 * qa.a * (code : ℝ))) / (2 * qa.a)) :=
    ⟨hx, Or.inl hx2lt⟩
  simp only [QuadraticApproximator.ConvertInverse]
  rw [if_neg hDnot, hD, Real.sqrt_mul_self hroot, hx1]
  rw [if_pos hcond]
  rw [if_neg (not_lt.mpr hx)]
  rw [if_neg (not_lt.mpr (by exact_mod_cast hcode : (code : ℝ) ≤ 65535))]
  exact (Nat.floor_eq_iff (by positivity)).mpr ⟨by norm_num, by norm_num⟩

/-- The approximator fitted from (0, 0), (2048, 5.0), (4095, 10.0). -/
noncomputable def qaCal : QuadraticApproximator :=
  NewQuadraticApproximatorFromPoints 0 0 2048 5 4095 10

theorem qaCal_a_pos : 0 < qaCal.a := by
  simp only [qaCal, NewQuadraticApproximatorFromPoints]
  norm_num

theorem qaCal_b_pos : 0 < qaCal.b := by
  simp only [qaCal, NewQuadraticApproximatorFromPoints]
  norm_num

/-- C7: for the quadratic approximator fitted from (0,0), (2048,5.0),
(4095,10.0), the round trip `ConvertInverse (Convert code)` returns a code
within ±1 of the original for every code in the fitted range (over exact
real arithmetic it is in fact exactly the original code). -/
theorem C7_quadratic_roundtrip (code : ℕ) (hcode : code ≤ 4095) :
    ((qaCal.ConvertInverse (qaCal.Convert code) : ℤ) - (code : ℤ)).natAbs ≤ 1 := by
  have h := convertInverse_convert qaCal qaCal_a_pos qaCal_b_pos code
    (le_trans hcode (by norm_num))
  rw [h]
  simp

/-- C7 witness: the round-trip bound at code 1000. -/
theorem C7_quadratic_roundtrip_witness :
    1000 ≤ 4095 ∧
    ((qaCal.ConvertInverse (qaCal.Convert 1000) : ℤ) - (1000 : ℤ)).natAbs ≤ 1 :=
  ⟨by norm_num, C7_quadratic_roundtrip 1000 (by norm_num)⟩

end dev
